import Mathlib

/-!
# Shallow embedding of the drand `go-clients` core

This file embeds, as executable Lean definitions, the parts of the
`drand/go-clients` repository that the verified claims are about:

* the canonical value objects (`client.RandomData`, the protobuf
  `drand.PublicRandResponse`, the beacon passed to `VerifyBeacon`);
* the HTTP transport client (`client/http`): the response handling of
  `httpClient.Get`, the `done`-channel close discipline of
  `httpClient.Close`, and `httpClient.Watch` built on
  `client.PollingWatcher`;
* the gRPC transport client (`client/grpc`): `grpcClient.Get` and `asRD`;
* the caching client (`client.cachingClient`): `Get` and `Watch`;
* the verifying client (`client.verifyingClient`): `asRandomData`,
  `verify`, `Get`, `Watch` and the trust walk
  `getTrustedPreviousSignature`;
* the libp2p gossip machinery (`client/lp2p`): the pub/sub message
  validator `randomnessValidator` and the broadcast loop of
  `NewWithPubsub` together with per-subscriber best-effort delivery.

External collaborators that the repository deliberately treats as opaque
(the threshold BLS primitive `crypto.Scheme.VerifyBeacon`, the randomness
derivation `crypto.RandomnessFromSignature`, the round/time arithmetic of
`drand/v2/common`, and the network itself) are parameters of the
embedding: abstract functions gathered in small environment structures,
instantiated with concrete small functions for executable witnesses.

Byte strings are modelled as `List Nat`; channels/streams as `List`;
effectful calls as explicit `Except`/`Option` values threaded by hand.
Per-call Go contexts, locks and logging are dropped: all the embedded
code paths are sequential once a single call is considered.
-/

/-- Opaque byte strings (signatures, seeds, randomness). -/
abbrev Bytes := List Nat

/-- `client.RandomData`: the canonical result value object with its four
fields (`round`, `randomness`, `signature`, `previous_signature`). -/
structure RandomData where
  rnd : Nat
  random : Bytes
  sig : Bytes
  previousSignature : Bytes
deriving Repr, DecidableEq

/-- The protobuf `drand.PublicRandResponse` as the gossip layer sees it
(the received `randomness` field is never read by the embedded code, so it
is omitted; the validator and the gossip loop only use round, signature and
previous signature). -/
structure PublicRandResponse where
  round : Nat
  signature : Bytes
  previousSignature : Bytes
deriving Repr, DecidableEq

/-- `common.Beacon`: the triple handed to the external
`crypto.Scheme.VerifyBeacon` primitive. -/
structure Beacon where
  previousSig : Bytes
  round : Nat
  signature : Bytes
deriving Repr, DecidableEq

/-- The abstract cryptographic environment: the external scheme primitive
`VerifyBeacon` and the randomness derivation
`crypto.RandomnessFromSignature` (`H` in the specification). -/
structure CryptoEnv where
  verifyBeacon : Beacon → Bool
  H : Bytes → Bytes

/-- `pubsub.ValidationResult` for the gossip validator. -/
inductive ValidationResult where
  | accept
  | reject
  | ignore
deriving Repr, DecidableEq

/-- Error values surfaced by the embedded clients.  Only the identity of
the error matters to the claims, so errors are an enumeration rather than
strings. -/
inductive ClientError where
  /-- `errClientClosed` of the HTTP client. -/
  | clientClosed
  /-- HTTP non-200 status. -/
  | badStatus
  /-- decode failure of a response body. -/
  | decodeError
  /-- `"insufficient response - signature is not present"` (HTTP client). -/
  | noSignature
  /-- `"no received randomness - unexpected gPRC response"` (gRPC client). -/
  | noRandomness
  /-- an error propagated from an inner client. -/
  | network
  /-- `VerifyBeacon` returned an error (`"verification of %v failed"`). -/
  | verificationFailed
  /-- `"could not get round %d"` during the trust walk. -/
  | walkFetchFailed
  /-- `"unexpected trust round %d"` at the end of the trust walk. -/
  | unexpectedTrustRound
  /-- `"round mismatch (malicious relay): got != want"`. -/
  | roundMismatch (got want : Nat)
  /-- the Go runtime fault `close of closed channel`. -/
  | closeOfClosedChannel
deriving Repr, DecidableEq

deriving instance DecidableEq for Except

/-! ## HTTP transport client (`client/http/http.go`, embedded from
`src/unnamed/part_023`) -/

/-- Response handling of `httpClient.Get` (part_023 lines 680-723), from
the point where the HTTP response is in hand: a non-200 status is an
error, an undecodable body is an error, an empty signature is the
`noSignature` error, and otherwise the `Random` field is overwritten with
`crypto.RandomnessFromSignature(signature)` and the result returned.
There is no check on the `round` field of the response. -/
def httpGetHandle (env : CryptoEnv) (status : Nat) (body : Option RandomData) :
    Except ClientError RandomData :=
  if status ≠ 200 then .error .badStatus
  else
    match body with
    | none => .error .decodeError
    | some randResp =>
      if randResp.sig = [] then .error .noSignature
      else .ok { randResp with random := env.H randResp.sig }

/-- The `done` channel state of an `httpClient`: `true` once the channel
has been closed by `Close`. -/
structure HttpState where
  done : Bool
deriving Repr, DecidableEq

/-- `httpClient.Close` (part_023 lines 761-765): `close(h.done)`.  In Go,
closing an already-closed channel is a runtime panic, modelled as the
`closeOfClosedChannel` error; otherwise the channel becomes closed. -/
def httpClose (s : HttpState) : Except ClientError HttpState :=
  if s.done then .error .closeOfClosedChannel
  else .ok { done := true }

/-- `httpClient.Get` including the `select` on `h.done` (part_023 lines
715-723): when the client has been closed before the call, the `done`
case of the select is immediately ready (the response goroutine has not
produced anything yet) and the call returns `errClientClosed`; otherwise
the response handling of `httpGetHandle` decides. -/
def httpGet (env : CryptoEnv) (s : HttpState) (status : Nat)
    (body : Option RandomData) : Except ClientError RandomData :=
  if s.done then .error .clientClosed
  else httpGetHandle env status body

/-- `client.PollingWatcher` (part_011 lines 15-64), with the sequence of
polled `Get` outcomes made explicit: the initial synchronous `Get` result
and the later periodic poll results.  If the initial `Get` fails the
channel is closed immediately (empty stream, `close(ch)` before the
goroutine starts); otherwise the initial value followed by every later
successful poll is delivered (failed polls are logged and skipped). -/
def pollingWatcher (initial : Except ClientError RandomData)
    (polls : List (Except ClientError RandomData)) : List RandomData :=
  match initial with
  | .error _ => []
  | .ok v => v :: polls.filterMap (fun r => r.toOption)

/-- `httpClient.Watch` (part_023 lines 727-748): forwards the
`PollingWatcher` stream until the client's `done` channel closes; a
client closed before the call yields an immediately-closed (empty)
stream.  The output channel carries results only - there is no error
slot. -/
def httpWatch (s : HttpState) (initial : Except ClientError RandomData)
    (polls : List (Except ClientError RandomData)) : List RandomData :=
  if s.done then [] else pollingWatcher initial polls

/-! ## gRPC transport client (`client/grpc/client.go`, embedded from
`src/unnamed/part_004`) -/

/-- `asRD` (part_004 lines 56-63): converts a protobuf response into a
`client.RandomData`, deriving the randomness from the signature. -/
def asRD (env : CryptoEnv) (r : PublicRandResponse) : RandomData :=
  { rnd := r.round
    random := env.H r.signature
    sig := r.signature
    previousSignature := r.previousSignature }

/-- `grpcClient.Get` (part_004 lines 71-81) from the point where the
unary `PublicRand` call has returned: a transport error or a `nil`
response is an error; any non-nil response is converted with `asRD` and
returned - neither the round nor the signature of the response is
checked. -/
def grpcGet (env : CryptoEnv) (resp : Except ClientError PublicRandResponse) :
    Except ClientError RandomData :=
  match resp with
  | .error e => .error e
  | .ok curr => .ok (asRD env curr)

/-! ## Caching client (`client/cache.go`, embedded from
`src/unnamed/part_015`) -/

/-- The by-round cache behind the `client.Cache` interface (`TryGet` /
`Add`).  The concrete store is an external ARC cache; its lookup/insert
contract is embedded as an association list keyed by round (eviction is
implementation-defined and no claim depends on it). -/
abbrev RoundCache := List (Nat × RandomData)

/-- `Cache.TryGet`. -/
def cacheTryGet (c : RoundCache) (round : Nat) : Option RandomData :=
  (c.find? (fun e => e.1 = round)).map (·.2)

/-- `Cache.Add`. -/
def cacheAdd (c : RoundCache) (round : Nat) (v : RandomData) : RoundCache :=
  (round, v) :: c

/-- `cachingClient.Get` (part_015 lines 95-104).  The returned flag
records whether the wrapped client was contacted.  For every requested
round - including round 0 - the cache is consulted first (`TryGet`); a
hit is returned without contacting the wrapped client; on a miss the
wrapped client is asked and a successful result is inserted under the
*result's* round (`val.GetRound()`), not the requested round. -/
def cachingGet (wrapped : Nat → Except ClientError RandomData)
    (c : RoundCache) (round : Nat) :
    Except ClientError (RandomData × RoundCache × Bool) :=
  match cacheTryGet c round with
  | some val => .ok (val, c, false)
  | none =>
    match wrapped round with
    | .error e => .error e
    | .ok val => .ok (val, cacheAdd c val.rnd val, true)

/-- `cachingClient.Watch` (part_015 lines 106-120): a pass-through that
inserts each received result into the cache under the result's round. -/
def cachingWatch (c : RoundCache) (stream : List RandomData) :
    List RandomData × RoundCache :=
  match stream with
  | [] => ([], c)
  | r :: rest =>
    (r :: (cachingWatch (cacheAdd c r.rnd r) rest).1,
      (cachingWatch (cacheAdd c r.rnd r) rest).2)

/-! ## Verifying client (`client/verify.go`, embedded from
`src/.golangci.yml` lines 195-404 where the file's Go source is spliced) -/

/-- The verifying client's environment: the crypto primitives, the
indirect client used to back-fetch rounds during chain walks
(`indirectClient.Get`, `none` modelling a failed fetch), and the chain's
`genesis_seed` from the indirect client's `Info`. -/
structure VerifierEnv where
  crypto : CryptoEnv
  fetch : Nat → Option RandomData
  genesisSeed : Bytes

/-- `asRandomData` (verify.go): the results flowing through the composed
client are `*client.RandomData` values, for which `asRandomData` sets
`rd.Random = crypto.RandomnessFromSignature(rd.GetSignature())` in place
and returns the same value. -/
def asRandomData (env : CryptoEnv) (r : RandomData) : RandomData :=
  { r with random := env.H r.sig }

/-- The body of the trust-walk loop in `getTrustedPreviousSignature`
(`for trustRound < round-1 { ... }`), by recursion on the remaining
iteration count `fuel = round - 1 - trustRound`.  Each iteration
increments `trustRound`, fetches that round from the indirect client,
verifies the beacon `{PreviousSig: trustPrevSig, Round: trustRound,
Signature: next.GetSignature()}` and advances `trustPrevSig` to the
fetched signature.  Returns the final `(trustRound, trustPrevSig, next)`
together with the list of beacons verified, in order. -/
def walkLoop (env : VerifierEnv) : Nat → Nat → Bytes → Option RandomData →
    Except ClientError (Nat × Bytes × Option RandomData × List Beacon)
  | 0, trustRound, trustPrevSig, next => .ok (trustRound, trustPrevSig, next, [])
  | fuel + 1, trustRound, trustPrevSig, _ =>
    match env.fetch (trustRound + 1) with
    | none => .error .walkFetchFailed
    | some nx =>
      let b : Beacon := ⟨trustPrevSig, trustRound + 1, nx.sig⟩
      if env.crypto.verifyBeacon b then
        match walkLoop env fuel (trustRound + 1) nx.sig (some nx) with
        | .error e => .error e
        | .ok (tr, ps, next, bs) => .ok (tr, ps, next, b :: bs)
      else .error .verificationFailed

/-- `verifyingClient.getTrustedPreviousSignature` (verify.go).  State in:
the stored point of trust; state out: the possibly-updated point of
trust, along with the trusted previous signature for `round` and the
trace of beacons the walk verified.  Round 1's previous signature is the
chain's `genesis_seed`.  When there is no point of trust or it is at a
round strictly greater than the requested one, the slow path restarts
from round 1 with the genesis seed (the recursive
`getTrustedPreviousSignature(ctx, 1)` call of the source).  After the
loop, the point of trust is reassigned to the last fetched result
whenever the walk ended at `round-1` having advanced past its starting
round.  The starting round and trusted signature of the walk - round 1
with the genesis seed when there is no usable point of trust, the stored
point of trust otherwise - are split out as `walkStart`. -/
def walkStart (env : VerifierEnv) (pointOfTrust : Option RandomData)
    (round : Nat) : Nat × Bytes :=
  match pointOfTrust with
  | none => (1, env.genesisSeed)
  | some p => if p.rnd > round then (1, env.genesisSeed) else (p.rnd, p.sig)

/-- See the comment above `walkStart`: this is
`verifyingClient.getTrustedPreviousSignature` itself. -/
def getTrustedPreviousSignature (env : VerifierEnv)
    (pointOfTrust : Option RandomData) (round : Nat) :
    Except ClientError (Bytes × Option RandomData × List Beacon) :=
  if round = 1 then .ok (env.genesisSeed, pointOfTrust, [])
  else
    let start := walkStart env pointOfTrust round
    let initialTrustRound := start.1
    match walkLoop env (round - 1 - start.1) start.1 start.2 none with
    | .error e => .error e
    | .ok (trustRound, trustPrevSig, next, bs) =>
      let pot' :=
        if trustRound = round - 1 ∧ initialTrustRound < trustRound then next
        else pointOfTrust
      if trustRound ≠ round - 1 then .error .unexpectedTrustRound
      else .ok (trustPrevSig, pot', bs)

/-- `verifyingClient.verify` (verify.go).  In strict mode the previous
signature is re-derived through the trust walk; otherwise the received
one is used (unused by unchained schemes inside `VerifyBeacon`).  On
successful verification the result's `Random` field is overwritten with
`crypto.RandomnessFromSignature(r.Sig)`; any failure yields an error and
no result. -/
def fetchPrevSig (env : VerifierEnv) (strict : Bool)
    (pointOfTrust : Option RandomData) (r : RandomData) :
    Except ClientError (Bytes × Option RandomData) :=
  if strict then
    match getTrustedPreviousSignature env pointOfTrust r.rnd with
    | .error e => .error e
    | .ok (ps, pot', _) => .ok (ps, pot')
  else .ok (r.previousSignature, pointOfTrust)

/-- The verification step proper of `verifyingClient.verify`: verify the
beacon built from the chosen previous signature, the result's round and
its signature, then overwrite the randomness. -/
def verifyResult (env : VerifierEnv) (strict : Bool)
    (pointOfTrust : Option RandomData) (r : RandomData) :
    Except ClientError (RandomData × Option RandomData) :=
  match fetchPrevSig env strict pointOfTrust r with
  | .error e => .error e
  | .ok (ps, pot') =>
    if env.crypto.verifyBeacon ⟨ps, r.rnd, r.sig⟩ then
      .ok ({ r with random := env.crypto.H r.sig }, pot')
    else .error .verificationFailed

/-- `verifyingClient.Get` (verify.go lines 241-259 of the embedded
source).  The inner client's outcome is explicit.  The received result is
normalised by `asRandomData`, verified, and then - only when a specific
round was requested - checked against the requested round, failing with
the `"round mismatch (malicious relay)"` error when they differ. -/
def verifyingGet (env : VerifierEnv) (strict : Bool)
    (pointOfTrust : Option RandomData)
    (inner : Except ClientError RandomData) (round : Nat) :
    Except ClientError (RandomData × Option RandomData) :=
  match inner with
  | .error e => .error e
  | .ok r =>
    match verifyResult env strict pointOfTrust (asRandomData env.crypto r) with
    | .error e => .error e
    | .ok (rd', pot') =>
      if round ≠ 0 ∧ rd'.rnd ≠ round then
        .error (.roundMismatch rd'.rnd round)
      else .ok (rd', pot')

/-- `verifyingClient.Watch` (verify.go lines 262-285 of the embedded
source): each result of the inner stream is verified; a result that fails
verification is logged and *skipped* (`continue`) - the output channel
carries no error - while verified results are emitted with their
randomness recomputed (the sent value is the same `*RandomData` that
`asRandomData`/`verify` mutated).  The point of trust is threaded through
the walk in strict mode. -/
def verifyingWatch (env : VerifierEnv) (strict : Bool)
    (pointOfTrust : Option RandomData) (stream : List RandomData) :
    List RandomData × Option RandomData :=
  match stream with
  | [] => ([], pointOfTrust)
  | r :: rest =>
    match verifyResult env strict pointOfTrust (asRandomData env.crypto r) with
    | .error _ => verifyingWatch env strict pointOfTrust rest
    | .ok (rd', pot') =>
      (rd' :: (verifyingWatch env strict pot' rest).1,
        (verifyingWatch env strict pot' rest).2)

/-! ## Gossip validator (`client/lp2p/validator.go` lines 21-90) -/

/-- A cached entry as `cache.TryGet` hands it to the validator: the
underlying beacon data, plus whether its dynamic Go type is
`*client.RandomData`.  A degraded entry (`full = false`, "this shouldn't
happen in practice" per the source comment) still answers `GetRound`,
`GetSignature` and `GetRandomness` but its previous signature is not
reachable through the `drand.Result` interface. -/
structure CachedEntry where
  full : Bool
  data : RandomData
deriving Repr, DecidableEq

/-- Environment of the gossip validator: the crypto primitives, the
external round/time arithmetic `common.TimeOfRound` (a function of the
chain's period and genesis time, abstract here), the chain's root of
trust (`none` when no chain info was configured), the cache (`none` when
no cache was installed), and the current clock reading. -/
structure ValidatorEnv where
  crypto : CryptoEnv
  timeOfRound : Nat → Int
  hasInfo : Bool
  cache : Option (Nat → Option CachedEntry)
  now : Int

/-- `randomnessValidator` (validator.go lines 26-89).  The incoming wire
message is `none` when `proto.Unmarshal` fails.  In order: undecodable →
reject; no root of trust → accept; beacon from the future → reject; a
cached entry for the message's round → equality comparison (all four of
round, derived randomness, signature and previous signature for a full
`*RandomData` entry, signature alone for a degraded entry), ignore on
equal and reject on different; otherwise accept exactly when the
signature verifies. -/
def randomnessValidator (env : ValidatorEnv)
    (msg : Option PublicRandResponse) : ValidationResult :=
  match msg with
  | none => .reject
  | some rand =>
    if ¬ env.hasInfo then .accept
    else if env.timeOfRound rand.round > env.now then .reject
    else
      match env.cache with
      | some tryGet =>
        match tryGet rand.round with
        | some current =>
          if ¬ current.full then
            if current.data.sig = rand.signature then .ignore else .reject
          else
            if current.data.rnd = rand.round ∧
                current.data.random = env.crypto.H rand.signature ∧
                current.data.sig = rand.signature ∧
                current.data.previousSignature = rand.previousSignature then
              .ignore
            else .reject
        | none =>
          if env.crypto.verifyBeacon
              ⟨rand.previousSignature, rand.round, rand.signature⟩ then
            .accept
          else .reject
      | none =>
        if env.crypto.verifyBeacon
            ⟨rand.previousSignature, rand.round, rand.signature⟩ then
          .accept
        else .reject

/-! ## Gossip client broadcast loop (`client/lp2p/client.go`,
`NewWithPubsub` lines 112-168) -/

/-- One pass of the subscription goroutine over a sequence of raw pub/sub
messages (`none` = `proto.Unmarshal` failure), starting from the client's
`latest` counter: undecodable messages are skipped, messages whose
signature does not verify are skipped, messages whose round is not
strictly above `latest` are skipped, and every remaining message advances
`latest` and is broadcast to the subscriber channels.  Returns the final
`latest` and the broadcast sequence in order. -/
def gossipLoop (crypto : CryptoEnv) (latest : Nat)
    (msgs : List (Option PublicRandResponse)) : Nat × List PublicRandResponse :=
  match msgs with
  | [] => (latest, [])
  | none :: rest => gossipLoop crypto latest rest
  | some rand :: rest =>
    if ¬ crypto.verifyBeacon
        ⟨rand.previousSignature, rand.round, rand.signature⟩ then
      gossipLoop crypto latest rest
    else if latest ≥ rand.round then
      gossipLoop crypto latest rest
    else
      ((gossipLoop crypto rand.round rest).1,
        rand :: (gossipLoop crypto rand.round rest).2)

/-- Best-effort delivery into one subscriber channel (`select { case ch
<- rand: default: }` and the identical drop-on-full forwarding inside
`Client.Watch`): for each broadcast message the oracle says whether the
subscriber's buffer had room.  The subscriber receives the kept
subsequence, in order. -/
def subscriberDeliver (broadcast : List PublicRandResponse)
    (room : List Bool) : List PublicRandResponse :=
  match broadcast, room with
  | [], _ => []
  | _, [] => []
  | r :: rest, b :: bs =>
    if b then r :: subscriberDeliver rest bs else subscriberDeliver rest bs

/-- Modelled from the spec: the watch aggregator implementation
(`newWatchAggregator`) is not under `src/` - only its tests
(`client/aggregator_test.go`) and its callers (`client/client.go`) are.
Spec §5: "the aggregator and the gossip client both discard any round not
strictly greater than their own highest delivered round"; delivery to
each subscriber is best-effort.  The aggregator's per-subscriber
delivery therefore keeps, in order, exactly the incoming rounds strictly
above the running highest delivered round. -/
def aggregatorDeliver (highest : Nat) (incoming : List Nat) : List Nat :=
  match incoming with
  | [] => []
  | r :: rest =>
    if highest < r then r :: aggregatorDeliver r rest
    else aggregatorDeliver highest rest

/-! ## Chaining predicate and concrete instantiations used by witnesses -/

/-- A list of beacons is correctly chained from a starting trusted
signature: the first beacon's previous signature is the start, and each
later beacon's previous signature is its predecessor's signature. -/
def chainedFromB : Bytes → List Beacon → Bool
  | _, [] => true
  | ps, b :: bs => (b.previousSig == ps) && chainedFromB b.signature bs

/-- A crypto environment whose scheme accepts every beacon; `H` prepends
a `0` byte so that derivation is observable. -/
def cryptoAccept : CryptoEnv := ⟨fun _ => true, fun s => 0 :: s⟩

/-- A crypto environment whose scheme rejects exactly the signature
`[9]`. -/
def cryptoRejectNine : CryptoEnv :=
  ⟨fun b => decide (b.signature ≠ [9]), fun s => 0 :: s⟩

/-- An indirect client that serves, for round `r`, a result of round `r`
with signature `[r]`. -/
def fetchSelf : Nat → Option RandomData := fun r => some ⟨r, [], [r], []⟩

/-- Verifier environment for walk witnesses: accept-all scheme,
`fetchSelf` indirect client, genesis seed `[0]`. -/
def envWalk : VerifierEnv := ⟨cryptoAccept, fetchSelf, [0]⟩

/-- Verifier environment whose scheme rejects signature `[9]`. -/
def envRejectNine : VerifierEnv := ⟨cryptoRejectNine, fun _ => none, [0]⟩

/-- A cache holding a single *degraded* (non-`RandomData`) entry for
round 5 whose signature is `[1]` but whose underlying beacon has previous
signature `[2]`. -/
def cacheDegraded : Nat → Option CachedEntry :=
  fun r => if r = 5 then some ⟨false, ⟨5, [7], [1], [2]⟩⟩ else none

/-- Validator environment for the degraded-cache-entry counterexample: a
root of trust is configured, nothing is in the future, and the cache is
`cacheDegraded`. -/
def envDegraded : ValidatorEnv :=
  ⟨cryptoAccept, fun _ => 0, true, some cacheDegraded, 0⟩

/-- Validator environment for witnesses of the amended gossip-validator
claim: root of trust configured, round 4 and above in the future, cache
holding a full entry for round 2 (derived randomness `0 :: [1]` matching
`cryptoAccept.H [1]`). -/
def envVal : ValidatorEnv :=
  ⟨cryptoAccept, fun r => if r ≥ 4 then 1 else 0, true,
    some (fun r => if r = 2 then some ⟨true, ⟨2, [0, 1], [1], [3]⟩⟩ else none), 0⟩

/-- A wrapped client that answers every request with a round-0 result
(signature `[9]`), as the gRPC transport can (it checks neither round nor
signature of a response). -/
def wrappedRoundZero : Nat → Except ClientError RandomData :=
  fun _ => .ok ⟨0, [], [9], []⟩

/-! ## Helper lemmas -/

/-- `List.range'` with unit step is strictly increasing. -/
theorem range'_pairwise_lt (s n : Nat) :
    (List.range' s n).Pairwise (· < ·) := by
  induction n generalizing s with
  | zero => simp
  | succ m ih =>
    rw [List.range'_succ]
    refine List.pairwise_cons.mpr ⟨?_, ih (s + 1)⟩
    intro a ha
    have := List.mem_range'_1.mp ha
    omega

/-- Everything the successful trust-walk loop guarantees: the final trust
round advances by exactly the fuel, the verified beacons cover the
consecutive rounds above the starting one, they are chained from the
starting trusted signature, each one passed `VerifyBeacon`, and the final
`next` value is the last fetch (or the initial value when the loop did
not run). -/
theorem walkLoop_ok_spec (env : VerifierEnv) (fuel : Nat) :
    ∀ (trustRound : Nat) (ps : Bytes) (nx0 : Option RandomData)
      (tr' : Nat) (ps' : Bytes) (next' : Option RandomData) (bs : List Beacon),
    walkLoop env fuel trustRound ps nx0 = .ok (tr', ps', next', bs) →
    tr' = trustRound + fuel ∧
    bs.map Beacon.round = List.range' (trustRound + 1) fuel ∧
    chainedFromB ps bs = true ∧
    (∀ b ∈ bs, env.crypto.verifyBeacon b = true) ∧
    (fuel = 0 → next' = nx0) ∧
    (0 < fuel → next' = env.fetch (trustRound + fuel)) := by
  induction fuel with
  | zero =>
    intro tr ps nx0 tr' ps' next' bs h
    simp only [walkLoop, Except.ok.injEq, Prod.mk.injEq] at h
    obtain ⟨h1, h2, h3, h4⟩ := h
    subst h1; subst h2; subst h3; subst h4
    simp [chainedFromB]
  | succ n ih =>
    intro tr ps nx0 tr' ps' next' bs h
    simp only [walkLoop] at h
    split at h
    · exact absurd h (by simp)
    rename_i nx hf
    split at h
    · rename_i hv
      split at h
      · exact absurd h (by simp)
      rename_i a b c d hrec
      simp only [Except.ok.injEq, Prod.mk.injEq] at h
      obtain ⟨h1, h2, h3, h4⟩ := h
      subst h1; subst h2; subst h3; subst h4
      obtain ⟨i1, i2, i3, i4, i5, i6⟩ := ih (tr + 1) nx.sig (some nx) a b c d hrec
      refine ⟨by omega, ?_, ?_, ?_, by omega, ?_⟩
      · simp only [List.map_cons, i2, List.range'_succ]
      · simp [chainedFromB, i3]
      · intro x hx
        rcases List.mem_cons.mp hx with h | h
        · subst h; exact hv
        · exact i4 x h
      · intro _
        rcases Nat.eq_zero_or_pos n with hn | hn
        · subst hn
          have := i5 rfl
          subst this
          rw [← hf]
        · have := i6 hn
          rw [this]
          congr 1
          omega
    · exact absurd h (by simp)

/-- What a successful `getTrustedPreviousSignature` call guarantees for a
target round other than 1: the verified beacons cover exactly the
consecutive rounds from the walk's starting round (exclusive) to
`round - 1` (inclusive), chained from the starting trusted signature and
all passing `VerifyBeacon`; and the stored point of trust either stays
unchanged or becomes whatever the indirect client returned for round
`round - 1`. -/
theorem getTrusted_ok_spec (env : VerifierEnv) (pot : Option RandomData)
    (round : Nat) (ps : Bytes) (pot' : Option RandomData) (bs : List Beacon)
    (hne : round ≠ 1)
    (h : getTrustedPreviousSignature env pot round = .ok (ps, pot', bs)) :
    bs.map Beacon.round =
      List.range' ((walkStart env pot round).1 + 1)
        (round - 1 - (walkStart env pot round).1) ∧
    chainedFromB (walkStart env pot round).2 bs = true ∧
    (∀ b ∈ bs, env.crypto.verifyBeacon b = true) ∧
    (pot' = pot ∨ pot' = env.fetch (round - 1)) := by
  unfold getTrustedPreviousSignature at h
  rw [if_neg hne] at h
  simp only at h
  split at h
  · exact absurd h (by simp)
  rename_i tr tps next bs0 hloop
  split at h
  · exact absurd h (by simp)
  rename_i htr
  simp only [Except.ok.injEq, Prod.mk.injEq] at h
  obtain ⟨h1, h2, h3⟩ := h
  subst h1; subst h3
  have heq : tr = round - 1 := by omega
  obtain ⟨i1, i2, i3, i4, i5, i6⟩ :=
    walkLoop_ok_spec env (round - 1 - (walkStart env pot round).1)
      (walkStart env pot round).1 (walkStart env pot round).2 none
      tr tps next bs0 hloop
  refine ⟨i2, i3, i4, ?_⟩
  rw [← h2]
  split
  · rename_i hcond
    right
    have hfuel : 0 < round - 1 - (walkStart env pot round).1 := by omega
    have := i6 hfuel
    rw [this]
    congr 1
    omega
  · left; rfl

/-- The gossip broadcast loop only broadcasts rounds strictly above the
`latest` counter it started from, in strictly increasing order. -/
theorem gossipLoop_spec (crypto : CryptoEnv)
    (msgs : List (Option PublicRandResponse)) :
    ∀ latest : Nat,
    ((gossipLoop crypto latest msgs).2.map PublicRandResponse.round).Pairwise
        (· < ·) ∧
    ∀ x ∈ (gossipLoop crypto latest msgs).2, latest < x.round := by
  induction msgs with
  | nil => intro latest; simp [gossipLoop]
  | cons m rest ih =>
    intro latest
    cases m with
    | none => simpa only [gossipLoop] using ih latest
    | some rand =>
      simp only [gossipLoop]
      split
      · exact ih latest
      split
      · exact ih latest
      rename_i hv hl
      obtain ⟨p1, p2⟩ := ih rand.round
      constructor
      · simp only [List.map_cons]
        refine List.pairwise_cons.mpr ⟨?_, p1⟩
        intro a ha
        obtain ⟨x, hx, hxa⟩ := List.mem_map.mp ha
        subst hxa
        exact p2 x hx
      · intro x hx
        rcases List.mem_cons.mp hx with h | h
        · subst h; omega
        · have := p2 x h; omega

/-- Best-effort delivery to one subscriber keeps a sublist of the
broadcast sequence. -/
theorem subscriberDeliver_sublist (broadcast : List PublicRandResponse) :
    ∀ room : List Bool,
      List.Sublist (subscriberDeliver broadcast room) broadcast := by
  induction broadcast with
  | nil => intro room; simp [subscriberDeliver]
  | cons r rest ih =>
    intro room
    cases room with
    | nil => simp [subscriberDeliver]
    | cons b bs =>
      cases b with
      | true =>
        simpa only [subscriberDeliver] using List.Sublist.cons₂ r (ih bs)
      | false =>
        simpa only [subscriberDeliver] using List.Sublist.cons r (ih bs)

/-- The spec-modelled aggregator delivery keeps only rounds strictly
above the running highest, in strictly increasing order. -/
theorem aggregatorDeliver_spec (incoming : List Nat) :
    ∀ highest : Nat,
    (aggregatorDeliver highest incoming).Pairwise (· < ·) ∧
    ∀ x ∈ aggregatorDeliver highest incoming, highest < x := by
  induction incoming with
  | nil => intro highest; simp [aggregatorDeliver]
  | cons r rest ih =>
    intro highest
    by_cases hr : highest < r
    · simp only [aggregatorDeliver, if_pos hr]
      obtain ⟨p1, p2⟩ := ih r
      constructor
      · exact List.pairwise_cons.mpr ⟨fun a ha => p2 a ha, p1⟩
      · intro x hx
        rcases List.mem_cons.mp hx with h | h
        · subst h; omega
        · have := p2 x h; omega
    · simp only [aggregatorDeliver, if_neg hr]
      exact ih highest

/-- A successful `verifyingClient.verify` call: `VerifyBeacon` accepted a
beacon with the result's round and signature (under the previous
signature the code chose), and the returned result is the input with its
randomness overwritten by the derivation from its signature. -/
theorem verifyResult_ok_spec (env : VerifierEnv) (strict : Bool)
    (pot : Option RandomData) (r rd : RandomData) (pot' : Option RandomData)
    (h : verifyResult env strict pot r = .ok (rd, pot')) :
    (∃ ps, env.crypto.verifyBeacon ⟨ps, r.rnd, r.sig⟩ = true) ∧
    rd = { r with random := env.crypto.H r.sig } := by
  unfold verifyResult at h
  split at h
  · exact absurd h (by simp)
  rename_i ps pot0 heq
  split at h
  · rename_i hv
    simp only [Except.ok.injEq, Prod.mk.injEq] at h
    exact ⟨⟨ps, hv⟩, h.1.symm⟩
  · exact absurd h (by simp)

/-! ## Claim theorems -/

/-- C1: every result emitted by the verifying client - by `Get` and by
`Watch` - has had its signature successfully verified by the scheme's
`VerifyBeacon` (under the previous signature the client chose), and its
randomness field equals the derivation `H(signature)` recomputed from the
signature; moreover the randomness field received from the transport is
never trusted: the outcome of `Get` is unchanged if the transport reports
a different randomness field. -/
theorem claim1_verifier_outputs_verified (env : VerifierEnv) (strict : Bool) :
    (∀ (pot : Option RandomData) (inner : Except ClientError RandomData)
        (round : Nat) (rd : RandomData) (pot' : Option RandomData),
      verifyingGet env strict pot inner round = .ok (rd, pot') →
      rd.random = env.crypto.H rd.sig ∧
      ∃ ps, env.crypto.verifyBeacon ⟨ps, rd.rnd, rd.sig⟩ = true) ∧
    (∀ (pot : Option RandomData) (stream : List RandomData),
      ∀ rd ∈ (verifyingWatch env strict pot stream).1,
      rd.random = env.crypto.H rd.sig ∧
      ∃ ps, env.crypto.verifyBeacon ⟨ps, rd.rnd, rd.sig⟩ = true) ∧
    (∀ (pot : Option RandomData) (r : RandomData) (x : Bytes) (round : Nat),
      verifyingGet env strict pot (.ok { r with random := x }) round =
        verifyingGet env strict pot (.ok r) round) := by
  have key : ∀ (pot : Option RandomData) (r rd : RandomData)
      (pot' : Option RandomData),
      verifyResult env strict pot (asRandomData env.crypto r) = .ok (rd, pot') →
      rd.random = env.crypto.H rd.sig ∧
      ∃ ps, env.crypto.verifyBeacon ⟨ps, rd.rnd, rd.sig⟩ = true := by
    intro pot r rd pot' h
    obtain ⟨⟨ps, hv⟩, hrd⟩ := verifyResult_ok_spec env strict pot _ rd pot' h
    subst hrd
    refine ⟨by simp [asRandomData], ⟨ps, ?_⟩⟩
    simpa [asRandomData] using hv
  refine ⟨?_, ?_, ?_⟩
  · intro pot inner round rd pot' h
    unfold verifyingGet at h
    split at h
    · exact absurd h (by simp)
    rename_i r
    split at h
    · exact absurd h (by simp)
    rename_i rd0 pot0 hres
    split at h
    · exact absurd h (by simp)
    simp only [Except.ok.injEq, Prod.mk.injEq] at h
    obtain ⟨h1, h2⟩ := h
    subst h1; subst h2
    exact key pot r rd0 pot0 hres
  · intro pot stream
    induction stream generalizing pot with
    | nil => intro rd h; simp [verifyingWatch] at h
    | cons r rest ih =>
      intro rd h
      simp only [verifyingWatch] at h
      split at h
      · exact ih pot rd h
      rename_i rd0 pot0 hres
      simp only [List.mem_cons] at h
      rcases h with h | h
      · subst h
        exact key pot r rd pot0 hres
      · exact ih pot0 rd h
  · intro pot r x round
    simp [verifyingGet, asRandomData]

/-- C1 witness: a concrete accepted round-3 result, whose transported
randomness `[9]` is replaced by the derived `H([7]) = [0, 7]`. -/
theorem claim1_witness :
    verifyingGet envWalk false none (.ok ⟨3, [9], [7], []⟩) 3 =
      .ok (⟨3, [0, 7], [7], []⟩, none) ∧
    ((⟨3, [0, 7], [7], []⟩ : RandomData).random =
        envWalk.crypto.H (⟨3, [0, 7], [7], []⟩ : RandomData).sig ∧
      ∃ ps, envWalk.crypto.verifyBeacon
          ⟨ps, (⟨3, [0, 7], [7], []⟩ : RandomData).rnd,
            (⟨3, [0, 7], [7], []⟩ : RandomData).sig⟩ = true) := by
  refine ⟨by decide, ?_⟩
  exact (claim1_verifier_outputs_verified envWalk false).1 none
    (.ok ⟨3, [9], [7], []⟩) 3 ⟨3, [0, 7], [7], []⟩ none (by decide)

/-- C2: for every successful `Get(q)` of the verifying client with
`q > 0`, the returned result's round equals `q` (and hence is at least
1); and whenever the verified result's round differs from a requested
round `q ≠ 0`, `Get` fails with the `"round mismatch (malicious relay)"`
error. -/
theorem claim2_get_round_matches_request (env : VerifierEnv) (strict : Bool)
    (pot : Option RandomData) (r0 : RandomData) (round : Nat)
    (rd : RandomData) (pot' : Option RandomData) :
    (verifyingGet env strict pot (.ok r0) round = .ok (rd, pot') →
      round ≠ 0 → rd.rnd = round ∧ 1 ≤ rd.rnd) ∧
    (verifyResult env strict pot (asRandomData env.crypto r0) =
        .ok (rd, pot') →
      round ≠ 0 → rd.rnd ≠ round →
      verifyingGet env strict pot (.ok r0) round =
        .error (.roundMismatch rd.rnd round)) := by
  constructor
  · intro h hq
    unfold verifyingGet at h
    split at h
    · exact absurd h (by simp)
    rename_i x1 r1 hr1
    split at h
    · exact absurd h (by simp)
    rename_i rd0 pot0 hres
    split at h
    · exact absurd h (by simp)
    rename_i hcond
    simp only [Except.ok.injEq, Prod.mk.injEq] at h
    obtain ⟨h1, h2⟩ := h
    subst h1
    have : rd0.rnd = round := by
      by_contra hc
      exact hcond ⟨hq, hc⟩
    omega
  · intro hres hq hne
    simp only [verifyingGet, hres]
    rw [if_pos ⟨hq, hne⟩]

/-- C2 witness: the concrete round-3 request of the C1 witness returns
round 3; and a verified round-7 result against a round-9 request makes
`Get` fail with the round-mismatch error. -/
theorem claim2_witness :
    verifyingGet envWalk false none (.ok ⟨3, [9], [7], []⟩) 3 =
      .ok (⟨3, [0, 7], [7], []⟩, none) ∧
    (3 : Nat) ≠ 0 ∧
    ((⟨3, [0, 7], [7], []⟩ : RandomData).rnd = 3 ∧
      1 ≤ (⟨3, [0, 7], [7], []⟩ : RandomData).rnd) ∧
    verifyingGet envWalk false none (.ok ⟨7, [], [4], []⟩) 9 =
      .error (.roundMismatch 7 9) := by
  refine ⟨by decide, by decide, ?_, ?_⟩
  · exact (claim2_get_round_matches_request envWalk false none
      ⟨3, [9], [7], []⟩ 3 ⟨3, [0, 7], [7], []⟩ none).1 (by decide) (by decide)
  · exact (claim2_get_round_matches_request envWalk false none
      ⟨7, [], [4], []⟩ 9 ⟨7, [0, 4], [4], []⟩ none).2 (by decide) (by decide)
      (by decide)

/-- C3 (amended): the gossip validator REJECTs undecodable messages;
with no root of trust it ACCEPTs every decodable message; with a root of
trust it REJECTs beacons from the future; when the cache holds the
message's round it compares the message against the cached entry -
against all of round, derived randomness, signature and previous
signature when the entry is a full `RandomData`, against the signature
alone when the entry is degraded - IGNOREing on equality and REJECTing
on difference; and an uncached message is ACCEPTed exactly when its
signature verifies. -/
theorem claim3_validator_cases (env : ValidatorEnv)
    (rand : PublicRandResponse) (tryGet : Nat → Option CachedEntry)
    (current : CachedEntry) :
    (randomnessValidator env none = .reject) ∧
    (env.hasInfo = false → randomnessValidator env (some rand) = .accept) ∧
    (env.hasInfo = true → env.timeOfRound rand.round > env.now →
      randomnessValidator env (some rand) = .reject) ∧
    (env.hasInfo = true → ¬ env.timeOfRound rand.round > env.now →
      env.cache = some tryGet → tryGet rand.round = some current →
      current.full = true →
      randomnessValidator env (some rand) =
        (if current.data.rnd = rand.round ∧
            current.data.random = env.crypto.H rand.signature ∧
            current.data.sig = rand.signature ∧
            current.data.previousSignature = rand.previousSignature then
          .ignore
        else .reject)) ∧
    (env.hasInfo = true → ¬ env.timeOfRound rand.round > env.now →
      env.cache = some tryGet → tryGet rand.round = some current →
      current.full = false →
      randomnessValidator env (some rand) =
        (if current.data.sig = rand.signature then .ignore else .reject)) ∧
    (env.hasInfo = true → ¬ env.timeOfRound rand.round > env.now →
      env.cache = none →
      randomnessValidator env (some rand) =
        (if env.crypto.verifyBeacon
            ⟨rand.previousSignature, rand.round, rand.signature⟩ then
          .accept
        else .reject)) ∧
    (env.hasInfo = true → ¬ env.timeOfRound rand.round > env.now →
      env.cache = some tryGet → tryGet rand.round = none →
      randomnessValidator env (some rand) =
        (if env.crypto.verifyBeacon
            ⟨rand.previousSignature, rand.round, rand.signature⟩ then
          .accept
        else .reject)) := by
  refine ⟨rfl, ?_, ?_, ?_, ?_, ?_, ?_⟩
  · intro hinfo
    simp [randomnessValidator, hinfo]
  · intro hinfo hfut
    simp [randomnessValidator, hinfo, hfut]
  · intro hinfo hfut hcache hget hfull
    simp only [randomnessValidator, hinfo, hfut, hcache, hget, hfull]
    simp
  · intro hinfo hfut hcache hget hfull
    simp only [randomnessValidator, hinfo, hfut, hcache, hget, hfull]
    simp
  · intro hinfo hfut hcache
    simp [randomnessValidator, hinfo, hfut, hcache]
  · intro hinfo hfut hcache hget
    simp [randomnessValidator, hinfo, hfut, hcache, hget]

/-- C3 counterexample: with a root of trust configured, a non-future
message for round 5 whose previous signature `[3]` differs from the
cached beacon's previous signature `[2]` is IGNOREd rather than REJECTed,
because the cached entry is degraded (not a `RandomData`) and only the
signature is compared. -/
theorem claim3_counterexample :
    envDegraded.hasInfo = true ∧
    envDegraded.cache = some cacheDegraded ∧
    cacheDegraded 5 = some ⟨false, ⟨5, [7], [1], [2]⟩⟩ ∧
    (⟨5, [7], [1], [2]⟩ : RandomData).previousSignature ≠
      (⟨5, [1], [3]⟩ : PublicRandResponse).previousSignature ∧
    randomnessValidator envDegraded (some ⟨5, [1], [3]⟩) = .ignore := by
  refine ⟨rfl, rfl, by decide, by decide, by decide⟩

/-- C3 witness: the amended characterization applied at concrete inputs:
a future round-4 message is rejected, and a round-2 message equal to the
full cached entry is ignored. -/
theorem claim3_witness :
    (envVal.hasInfo = true ∧ envVal.timeOfRound 4 > envVal.now ∧
      randomnessValidator envVal (some ⟨4, [1], []⟩) = .reject) ∧
    randomnessValidator envVal (some ⟨2, [1], [3]⟩) = .ignore := by
  constructor
  · refine ⟨rfl, by decide, ?_⟩
    exact (claim3_validator_cases envVal ⟨4, [1], []⟩ (fun _ => none)
      ⟨true, ⟨0, [], [], []⟩⟩).2.2.1 rfl (by decide)
  · have := (claim3_validator_cases envVal ⟨2, [1], [3]⟩
      (fun r => if r = 2 then some ⟨true, ⟨2, [0, 1], [1], [3]⟩⟩ else none)
      ⟨true, ⟨2, [0, 1], [1], [3]⟩⟩).2.2.2.1 rfl (by decide) rfl (by decide)
      rfl
    rw [this]
    decide

/-- C4 (amended): the trust walk verifies intermediate rounds in
strictly increasing order, each verified beacon using the previously
trusted signature as its previous signature (chained from the walk's
starting trusted signature); round 1's previous signature is the
`genesis_seed`; when the requested round is lower than the stored point
of trust, a fresh walk starts from round 1 with the genesis seed.  On
completion the point of trust either stays unchanged or is reassigned to
the result the indirect client returned for `round - 1` - which, after a
fresh walk triggered by a request below the stored point of trust, can
be a *lower* round than the previously stored one (see the
counterexample). -/
theorem claim4_trust_walk_behavior (env : VerifierEnv)
    (pot : Option RandomData) (round : Nat) (ps : Bytes)
    (pot' : Option RandomData) (bs : List Beacon) (p : RandomData) :
    (getTrustedPreviousSignature env pot 1 = .ok (env.genesisSeed, pot, [])) ∧
    (round ≠ 1 →
      getTrustedPreviousSignature env pot round = .ok (ps, pot', bs) →
      (bs.map Beacon.round).Pairwise (· < ·) ∧
      chainedFromB (walkStart env pot round).2 bs = true ∧
      (∀ b ∈ bs, env.crypto.verifyBeacon b = true) ∧
      (pot' = pot ∨ pot' = env.fetch (round - 1))) ∧
    (pot = some p → p.rnd > round →
      walkStart env pot round = (1, env.genesisSeed)) := by
  refine ⟨by simp [getTrustedPreviousSignature], ?_, ?_⟩
  · intro hne h
    obtain ⟨i1, i2, i3, i4⟩ := getTrusted_ok_spec env pot round ps pot' bs hne h
    refine ⟨?_, i2, i3, i4⟩
    rw [i1]
    exact range'_pairwise_lt _ _
  · intro hpot hgt
    subst hpot
    simp [walkStart, hgt]

/-- C4 counterexample: with the point of trust stored at round 5, a
request for round 3 walks afresh from round 1 and then *reassigns* the
point of trust to the newly verified round-2 result - the point of trust
moves backward from round 5 to round 2, refuting "the point of trust
only ever advances to a strictly higher round". -/
theorem claim4_counterexample :
    getTrustedPreviousSignature envWalk (some ⟨5, [], [5], []⟩) 3 =
      .ok ([2], some ⟨2, [], [2], []⟩, [⟨[0], 2, [2]⟩]) ∧
    (⟨2, [], [2], []⟩ : RandomData).rnd < (⟨5, [], [5], []⟩ : RandomData).rnd := by
  exact ⟨by decide, by decide⟩

/-- C4 witness: the amended characterization applied to a concrete walk
to round 4 from an empty point of trust: rounds 2 and 3 are verified in
increasing order, chained from the genesis seed `[0]`. -/
theorem claim4_witness :
    (4 : Nat) ≠ 1 ∧
    getTrustedPreviousSignature envWalk none 4 =
      .ok ([3], some ⟨3, [], [3], []⟩, [⟨[0], 2, [2]⟩, ⟨[2], 3, [3]⟩]) ∧
    (([⟨[0], 2, [2]⟩, ⟨[2], 3, [3]⟩] : List Beacon).map Beacon.round).Pairwise
      (· < ·) ∧
    chainedFromB (walkStart envWalk none 4).2
      [⟨[0], 2, [2]⟩, ⟨[2], 3, [3]⟩] = true := by
  refine ⟨by decide, by decide, ?_, ?_⟩
  · exact ((claim4_trust_walk_behavior envWalk none 4 [3]
      (some ⟨3, [], [3], []⟩) [⟨[0], 2, [2]⟩, ⟨[2], 3, [3]⟩]
      ⟨0, [], [], []⟩).2.1 (by decide) (by decide)).1
  · exact ((claim4_trust_walk_behavior envWalk none 4 [3]
      (some ⟨3, [], [3], []⟩) [⟨[0], 2, [2]⟩, ⟨[2], 3, [3]⟩]
      ⟨0, [], [], []⟩).2.1 (by decide) (by decide)).2.1

/-- C5 (amended): the HTTP client's `Get` rejects a response whose
signature is empty (and otherwise accepts it with derived randomness,
without checking the round); the gRPC client's `Get` converts any non-nil
response without checking round or signature; and the gossip subscriber,
whose `latest` counter starts at 0, never delivers a round-0 message. -/
theorem claim5_transport_validation (env : CryptoEnv) (r : RandomData)
    (p : PublicRandResponse) (msgs : List (Option PublicRandResponse)) :
    (r.sig = [] → httpGetHandle env 200 (some r) = .error .noSignature) ∧
    (r.sig ≠ [] →
      httpGetHandle env 200 (some r) = .ok { r with random := env.H r.sig }) ∧
    (grpcGet env (.ok p) = .ok (asRD env p)) ∧
    (∀ x ∈ (gossipLoop env 0 msgs).2, 1 ≤ x.round) := by
  refine ⟨?_, ?_, rfl, ?_⟩
  · intro hsig
    simp [httpGetHandle, hsig]
  · intro hsig
    simp [httpGetHandle, hsig]
  · intro x hx
    have := (gossipLoop_spec env msgs 0).2 x hx
    omega

/-- C5 counterexample: the gRPC client accepts a response with round 0
and an empty signature, and the HTTP client accepts a round-0 response
whose signature is non-empty - refuting "all three transport clients
reject round 0 responses and any response whose signature is empty". -/
theorem claim5_counterexample :
    grpcGet cryptoAccept (.ok ⟨0, [], []⟩) = .ok ⟨0, [0], [], []⟩ ∧
    httpGetHandle cryptoAccept 200 (some ⟨0, [5], [1], []⟩) =
      .ok ⟨0, [0, 1], [1], []⟩ := by
  exact ⟨by decide, by decide⟩

/-- C5 witness: the amended characterization applied at concrete inputs:
an empty-signature HTTP response is rejected with the no-signature
error, and a non-empty-signature response is accepted with derived
randomness. -/
theorem claim5_witness :
    ((⟨7, [], [], []⟩ : RandomData).sig = [] ∧
      httpGetHandle cryptoAccept 200 (some ⟨7, [], [], []⟩) =
        .error .noSignature) ∧
    ((⟨7, [], [2], []⟩ : RandomData).sig ≠ [] ∧
      httpGetHandle cryptoAccept 200 (some ⟨7, [], [2], []⟩) =
        .ok ⟨7, [0, 2], [2], []⟩) := by
  constructor
  · exact ⟨by decide, (claim5_transport_validation cryptoAccept
      ⟨7, [], [], []⟩ ⟨0, [], []⟩ []).1 (by decide)⟩
  · refine ⟨by decide, ?_⟩
    have := (claim5_transport_validation cryptoAccept
      ⟨7, [], [2], []⟩ ⟨0, [], []⟩ []).2.1 (by decide)
    rw [this]
    decide

/-- C6 (amended): the HTTP client's `Close` is not idempotent.  The
first `Close` marks the client closed, after which `Get` fails with the
`errClientClosed` sentinel and `Watch` yields an immediately-closed
stream; but a second `Close` closes an already-closed Go channel, which
panics, rather than being a no-op. -/
theorem claim6_http_close_behavior (env : CryptoEnv) (status : Nat)
    (body : Option RandomData) (initial : Except ClientError RandomData)
    (polls : List (Except ClientError RandomData)) :
    httpClose ⟨false⟩ = .ok ⟨true⟩ ∧
    httpGet env ⟨true⟩ status body = .error .clientClosed ∧
    httpWatch ⟨true⟩ initial polls = [] ∧
    httpClose ⟨true⟩ = .error .closeOfClosedChannel := by
  exact ⟨rfl, rfl, rfl, rfl⟩

/-- C6 counterexample: calling `Close` twice from the open state is a
runtime panic (close of a closed channel) and is observably different
from calling it once - refuting "calling Close k times has the same
observable effect as calling it once" and "double-close is a no-op". -/
theorem claim6_counterexample :
    (httpClose ⟨false⟩).bind httpClose = .error .closeOfClosedChannel ∧
    httpClose ⟨false⟩ = .ok ⟨true⟩ ∧
    (httpClose ⟨false⟩).bind httpClose ≠ httpClose ⟨false⟩ := by
  exact ⟨by decide, by decide, by decide⟩

/-- C7 (amended): verification failures in the verifying client's `Get`
are surfaced to the caller as errors; but in the verifying client's
`Watch` stream a result that fails verification is logged and *skipped* -
the output channel carries no error and the stream continues; and in the
gossip validator a verification failure yields REJECT. -/
theorem claim7_verification_error_handling (env : VerifierEnv)
    (strict : Bool) (pot : Option RandomData) (r : RandomData)
    (rest : List RandomData) (round : Nat) (e : ClientError)
    (venv : ValidatorEnv) (rand : PublicRandResponse) :
    (verifyResult env strict pot (asRandomData env.crypto r) = .error e →
      verifyingGet env strict pot (.ok r) round = .error e) ∧
    (verifyResult env strict pot (asRandomData env.crypto r) = .error e →
      verifyingWatch env strict pot (r :: rest) =
        verifyingWatch env strict pot rest) ∧
    (venv.hasInfo = true → ¬ venv.timeOfRound rand.round > venv.now →
      venv.cache = none →
      venv.crypto.verifyBeacon
          ⟨rand.previousSignature, rand.round, rand.signature⟩ = false →
      randomnessValidator venv (some rand) = .reject) := by
  refine ⟨?_, ?_, ?_⟩
  · intro hres
    simp [verifyingGet, hres]
  · intro hres
    simp [verifyingWatch, hres]
  · intro hinfo hfut hcache hv
    simp [randomnessValidator, hinfo, hfut, hcache, hv]

/-- C7 counterexample: a stream whose first result fails verification
produces the same `Watch` output as the stream without it - the failing
result is silently skipped and no error is delivered - refuting "a
result received through the verifying client's Watch stream whose
signature fails verification is surfaced as an error rather than being
skipped". -/
theorem claim7_counterexample :
    verifyResult envRejectNine false none
      (asRandomData cryptoRejectNine ⟨1, [], [9], []⟩) =
      .error .verificationFailed ∧
    verifyingWatch envRejectNine false none
        [⟨1, [], [9], []⟩, ⟨2, [], [4], []⟩] =
      verifyingWatch envRejectNine false none [⟨2, [], [4], []⟩] ∧
    verifyingWatch envRejectNine false none
        [⟨1, [], [9], []⟩, ⟨2, [], [4], []⟩] =
      ([⟨2, [0, 4], [4], []⟩], none) := by
  exact ⟨by decide, by decide, by decide⟩

/-- C7 witness: the amended behavior applied at concrete inputs: the
round-1 result with the rejected signature `[9]` makes `Get` fail with
the verification error, and is skipped by `Watch`. -/
theorem claim7_witness :
    (verifyResult envRejectNine false none
        (asRandomData cryptoRejectNine ⟨1, [], [9], []⟩) =
        .error .verificationFailed ∧
      verifyingGet envRejectNine false none (.ok ⟨1, [], [9], []⟩) 1 =
        .error .verificationFailed) ∧
    verifyingWatch envRejectNine false none [⟨1, [], [9], []⟩] =
      verifyingWatch envRejectNine false none [] := by
  constructor
  · exact ⟨by decide, (claim7_verification_error_handling envRejectNine
      false none ⟨1, [], [9], []⟩ [] 1 .verificationFailed
      ⟨cryptoAccept, fun _ => 0, true, none, 0⟩ ⟨0, [], []⟩).1 (by decide)⟩
  · exact (claim7_verification_error_handling envRejectNine
      false none ⟨1, [], [9], []⟩ [] 1 .verificationFailed
      ⟨cryptoAccept, fun _ => 0, true, none, 0⟩ ⟨0, [], []⟩).2.1 (by decide)

/-- C8 (amended): the caching client's `Get` consults the cache first
for *every* requested round, round 0 included: a hit is returned without
contacting the wrapped client; on a miss the wrapped client is asked and
a successful result is inserted under the result's own round number;
errors propagate; and `Watch` passes every result through while
inserting it into the cache.  There is no special round-0 bypass in the
code: `Get(0)` is only served fresh as long as no entry is cached under
key 0. -/
theorem claim8_caching_client_behavior
    (wrapped : Nat → Except ClientError RandomData) (c : RoundCache)
    (round : Nat) (val : RandomData) (e : ClientError)
    (stream : List RandomData) :
    (cacheTryGet c round = some val →
      cachingGet wrapped c round = .ok (val, c, false)) ∧
    (cacheTryGet c round = none → wrapped round = .ok val →
      cachingGet wrapped c round = .ok (val, cacheAdd c val.rnd val, true)) ∧
    (cacheTryGet c round = none → wrapped round = .error e →
      cachingGet wrapped c round = .error e) ∧
    ((cachingWatch c stream).1 = stream) := by
  refine ⟨?_, ?_, ?_, ?_⟩
  · intro hhit
    simp [cachingGet, hhit]
  · intro hmiss hok
    simp [cachingGet, hmiss, hok]
  · intro hmiss herr
    simp [cachingGet, hmiss, herr]
  · induction stream generalizing c with
    | nil => simp [cachingWatch]
    | cons r rest ih => simp [cachingWatch, ih]

/-- C8 counterexample: a wrapped client that (like the gRPC transport
can) returns a round-0 result causes an entry to be cached under key 0;
the next `Get(0)` is then served from the cache without contacting the
wrapped client - refuting "Get(0) bypasses the cache, so every Get(0)
reaches the wrapped client and is never served from the cache". -/
theorem claim8_counterexample :
    cachingGet wrappedRoundZero [] 5 =
      .ok (⟨0, [], [9], []⟩, [(0, ⟨0, [], [9], []⟩)], true) ∧
    cachingGet wrappedRoundZero [(0, ⟨0, [], [9], []⟩)] 0 =
      .ok (⟨0, [], [9], []⟩, [(0, ⟨0, [], [9], []⟩)], false) := by
  exact ⟨by decide, by decide⟩

/-- C8 witness: the amended behavior applied at concrete inputs: a hit
for round 2 is served from the cache without contacting the wrapped
client, and a miss for round 3 fetches and inserts under the result's
round. -/
theorem claim8_witness :
    (cacheTryGet [(2, ⟨2, [], [2], []⟩)] 2 = some ⟨2, [], [2], []⟩ ∧
      cachingGet (fun r => .ok ⟨r, [], [r], []⟩) [(2, ⟨2, [], [2], []⟩)] 2 =
        .ok (⟨2, [], [2], []⟩, [(2, ⟨2, [], [2], []⟩)], false)) ∧
    (cacheTryGet [(2, ⟨2, [], [2], []⟩)] 3 = none ∧
      cachingGet (fun r => .ok ⟨r, [], [r], []⟩) [(2, ⟨2, [], [2], []⟩)] 3 =
        .ok (⟨3, [], [3], []⟩,
          cacheAdd [(2, ⟨2, [], [2], []⟩)] 3 ⟨3, [], [3], []⟩, true)) := by
  constructor
  · exact ⟨by decide, (claim8_caching_client_behavior
      (fun r => .ok ⟨r, [], [r], []⟩) [(2, ⟨2, [], [2], []⟩)] 2
      ⟨2, [], [2], []⟩ .network []).1 (by decide)⟩
  · exact ⟨by decide, (claim8_caching_client_behavior
      (fun r => .ok ⟨r, [], [r], []⟩) [(2, ⟨2, [], [2], []⟩)] 3
      ⟨3, [], [3], []⟩ .network []).2.1 (by decide) (by decide)⟩

/-- C9: for every subscriber of `Watch`, the sequence of delivered
rounds is strictly increasing: the gossip client's broadcast loop
discards any round not strictly greater than its `latest` counter, so
whatever subsequence reaches a subscriber through best-effort delivery
is strictly increasing; and the (spec-modelled) watch aggregator's
per-subscriber delivery discards any round not strictly greater than its
highest delivered round. -/
theorem claim9_watch_rounds_strictly_increasing (crypto : CryptoEnv)
    (latest : Nat) (msgs : List (Option PublicRandResponse))
    (room : List Bool) (highest : Nat) (incoming : List Nat) :
    ((subscriberDeliver (gossipLoop crypto latest msgs).2 room).map
        PublicRandResponse.round).Pairwise (· < ·) ∧
    (aggregatorDeliver highest incoming).Pairwise (· < ·) := by
  constructor
  · have hsub := subscriberDeliver_sublist (gossipLoop crypto latest msgs).2 room
    have hmap := List.Sublist.map PublicRandResponse.round hsub
    exact (gossipLoop_spec crypto msgs latest).1.sublist hmap
  · exact (aggregatorDeliver_spec incoming highest).1

/-- C10: if the initial synchronous `Get` of the current round fails,
`PollingWatcher` returns an already-closed channel (the empty stream) -
regardless of what later polls would have returned, so the failed fetch
is not retried within the call - and the HTTP client's `Watch`, which
forwards the `PollingWatcher` stream, therefore yields no results and
surfaces no error for that call. -/
theorem claim10_polling_watcher_failed_initial (e : ClientError)
    (polls polls' : List (Except ClientError RandomData)) :
    pollingWatcher (.error e) polls = [] ∧
    pollingWatcher (.error e) polls = pollingWatcher (.error e) polls' ∧
    httpWatch ⟨false⟩ (.error e) polls = [] := by
  exact ⟨rfl, rfl, rfl⟩
